import Mathlib

/-!
Verification of the todo backend (src/todo_backend/src/api/main.py) against its
specification.  The SQLite-backed FastAPI service is shallowly embedded:

* a stored table row (`tasks` table) is a `Row`; the list of rows is kept in
  rowid (insertion) order, which is SQLite's natural retrieval order;
* the AUTOINCREMENT id counter is `nextId` (SQLite AUTOINCREMENT never reuses
  ids, so `nextId` is one more than the largest id ever assigned);
* `created_at` is modelled as a `Nat` timestamp: the code stores
  `datetime.utcnow().isoformat()` and orders by `datetime(created_at)`, and for
  timestamps produced this way that comparison is the chronological order, so a
  numeric time abstracts the ISO-8601 string faithfully;
* `completed` is stored as an `Int`, matching the INTEGER column; the Python
  reads it back with `bool` applied to the stored integer, i.e. `≠ 0`;
* Pydantic request models become structures, and the FastAPI 422 validation
  that runs before each handler becomes an explicit check at the head of the
  corresponding operation;
* each endpoint returns `Except Nat (α × DB)`: `.error s` is an HTTPException
  with status code `s`, `.ok (a, db)` is a successful response with body `a`
  and committed database `db`.  The `get_conn` context manager commits only
  when the handler body finishes without an exception and discards the open
  transaction otherwise; `runOp` models that commit-or-discard boundary.
-/

namespace Todo

/-- A row of the `tasks` table.  `completed` is the raw INTEGER column value;
`created_at` is the creation timestamp (see module docstring). -/
structure Row where
  id : Nat
  title : String
  completed : Int
  created_at : Nat
  deriving DecidableEq, Repr

/-- The persistent store: the `tasks` table rows in rowid (insertion) order,
plus the AUTOINCREMENT counter for the next id. -/
structure DB where
  rows : List Row
  nextId : Nat
  deriving DecidableEq, Repr

/-- The `Task` response model: what `row_to_task` produces and every endpoint
serialises. -/
structure Task where
  id : Nat
  title : String
  completed : Bool
  created_at : Nat
  deriving DecidableEq, Repr

/-- Model of `row_to_task` from main.py: the `completed` field is read back
as `bool(row["completed"])`, normalising the INTEGER 0/1 column to a
boolean; the other fields are copied. -/
def row_to_task (r : Row) : Task :=
  { id := r.id, title := r.title, completed := r.completed ≠ 0,
    created_at := r.created_at }

/-- The `TaskCreate` payload: `title` required, `completed` optional with default
`False` (a client may still send an explicit `null`, hence `Option`). -/
structure TaskCreate where
  title : String
  completed : Option Bool := some false
  deriving DecidableEq, Repr

/-- The `TaskUpdate` payload: both fields optional, defaulting to `None`. -/
structure TaskUpdate where
  title : Option String := none
  completed : Option Bool := none
  deriving DecidableEq, Repr

/-- Python's `str.strip()` (no argument): drop leading and trailing whitespace
characters.  Written structurally on the character list so it computes by
`rfl`; `Char.isWhitespace` covers the ASCII whitespace relevant here. -/
def pyStrip (s : String) : String :=
  String.mk ((((s.data.dropWhile Char.isWhitespace).reverse).dropWhile
    Char.isWhitespace).reverse)

/-- Python's `len` on a string: the number of characters (code points). -/
def pyLen (s : String) : Nat :=
  s.data.length

/-- Pydantic's constraint on a title field: `min_length=1, max_length=255`,
checked on the raw (untrimmed) string. -/
def titleFieldOk (s : String) : Bool :=
  1 ≤ pyLen s && pyLen s ≤ 255

/-- FastAPI validation of a `TaskCreate` body (422 on failure, before the
handler runs). -/
def validCreate (p : TaskCreate) : Bool :=
  titleFieldOk p.title

/-- FastAPI validation of a `TaskUpdate` body: the title constraint applies
only when a title is provided. -/
def validUpdate (p : TaskUpdate) : Bool :=
  match p.title with
  | some t => titleFieldOk t
  | none => true

/-- Model of `SELECT ... FROM tasks WHERE id = ?` followed by `fetchone()`:
the first
row in scan order whose id matches, if any. -/
def fetchOne (rows : List Row) (id : Nat) : Option Row :=
  rows.find? (fun r => r.id = id)

/-- Model of `1 if payload.completed else 0`: Python truthiness sends both
`None` and `False` to 0. -/
def completedToInt (c : Option Bool) : Int :=
  if c = some true then 1 else 0

/-- The row INSERTed by `create_task`: trimmed title, `completed` as 0/1, the
caller-computed `created_at`, and the id assigned by AUTOINCREMENT. -/
def newRowOf (p : TaskCreate) (now : Nat) (nid : Nat) : Row :=
  { id := nid, title := pyStrip p.title,
    completed := completedToInt p.completed, created_at := now }

/-- Endpoint `POST /tasks` (`create_task`): after validation, INSERT the trimmed title,
the 0/1 completed flag and the caller-supplied timestamp, then re-SELECT the
row by `lastrowid` and convert it.  Success is HTTP 201. -/
def create_task (p : TaskCreate) (now : Nat) (db : DB) : Except Nat (Task × DB) :=
  if !validCreate p then .error 422
  else
    let rows' := db.rows ++ [newRowOf p now db.nextId]
    match fetchOne rows' db.nextId with
    | some r => .ok (row_to_task r, { rows := rows', nextId := db.nextId + 1 })
    | none => .error 500

/-- Endpoint `GET /tasks` (`list_tasks`): `SELECT ... ORDER BY datetime(created_at)
DESC`.  Modelled as a stable sort of the rows, newest first, ties left in
natural retrieval order. -/
def list_tasks (db : DB) : List Task :=
  (db.rows.mergeSort (fun a b => decide (b.created_at ≤ a.created_at))).map row_to_task

/-- The effect of `update_task`'s dynamic `UPDATE tasks SET ... WHERE id = ?`
on one row: rows with a different id are untouched; on the matching row each
provided field is written (title trimmed, completed as 0/1). -/
def updRow (p : TaskUpdate) (task_id : Nat) (r : Row) : Row :=
  if r.id = task_id then
    { r with
      title := match p.title with | some t => pyStrip t | none => r.title,
      completed := match p.completed with
        | some b => if b then 1 else 0
        | none => r.completed }
  else r

/-- Endpoint `PUT /tasks/{task_id}` (`update_task`): 400 when no field is given, 404
when the id has no row, otherwise UPDATE only the provided fields (title
trimmed, completed as 0/1) and return the re-SELECTed row.  Success is
HTTP 200. -/
def update_task (p : TaskUpdate) (task_id : Nat) (db : DB) : Except Nat (Task × DB) :=
  if !validUpdate p then .error 422
  else if p.title = none ∧ p.completed = none then .error 400
  else if (fetchOne db.rows task_id).isNone then .error 404
  else
    let rows' := db.rows.map (updRow p task_id)
    match fetchOne rows' task_id with
    | some r => .ok (row_to_task r, { db with rows := rows' })
    | none => .error 500

/-- The effect of `UPDATE tasks SET completed = ? WHERE id = ?` on one row. -/
def setCompleted (c : Int) (task_id : Nat) (r : Row) : Row :=
  if r.id = task_id then { r with completed := c } else r

/-- Endpoint `PATCH /tasks/{task_id}/toggle` (`toggle_task`): 404 when the id has no
row, otherwise set completed to `0 if bool(completed) else 1` and return the
re-SELECTed row.  Success is HTTP 200. -/
def toggle_task (task_id : Nat) (db : DB) : Except Nat (Task × DB) :=
  match fetchOne db.rows task_id with
  | none => .error 404
  | some row =>
    let new_completed : Int := if row.completed ≠ 0 then 0 else 1
    let rows' := db.rows.map (setCompleted new_completed task_id)
    match fetchOne rows' task_id with
    | some r => .ok (row_to_task r, { db with rows := rows' })
    | none => .error 500

/-- Endpoint `DELETE /tasks/{task_id}` (`delete_task`): `DELETE FROM tasks WHERE
id = ?`; a rowcount of 0 distinguishes not-found (404) from success (204 with
empty body, modelled by `Unit`). -/
def delete_task (task_id : Nat) (db : DB) : Except Nat (Unit × DB) :=
  let rows' := db.rows.filter (fun r => r.id ≠ task_id)
  if rows'.length = db.rows.length then .error 404
  else .ok ((), { db with rows := rows' })

/-- The `get_conn` commit-or-discard boundary: a handler that raises an
HTTPException skips `conn.commit()`, so the connection is closed with the
transaction discarded and the store is left as it was. -/
def runOp {α : Type} (op : DB → Except Nat (α × DB)) (db : DB) :
    Except Nat α × DB :=
  match op db with
  | .ok (a, db') => (.ok a, db')
  | .error e => (.error e, db)

/-- The schema invariant on the `completed` INTEGER column: every write path
stores exactly 0 or 1. -/
def Completed01 (db : DB) : Prop :=
  ∀ r ∈ db.rows, r.completed = 0 ∨ r.completed = 1

instance (db : DB) : Decidable (Completed01 db) := by
  unfold Completed01; infer_instance

/-- Well-formedness of a reachable store: AUTOINCREMENT ids start at 1 and are
assigned in strictly increasing order, every id is below the AUTOINCREMENT
counter, and the `completed` column holds only 0 or 1. -/
def DB.WF (db : DB) : Prop :=
  1 ≤ db.nextId ∧
  db.rows.Pairwise (fun a b => a.id < b.id) ∧
  (∀ r ∈ db.rows, r.id < db.nextId) ∧
  Completed01 db

instance (db : DB) : Decidable db.WF := by
  unfold DB.WF; infer_instance

/-! ### Basic facts about the embedded operations -/

theorem fetchOne_eq_none {rows : List Row} {id : Nat}
    (h : ∀ r ∈ rows, r.id ≠ id) : fetchOne rows id = none := by
  apply List.find?_eq_none.mpr
  intro r hr
  simp [h r hr]

theorem fetchOne_id {rows : List Row} {id : Nat} {r : Row}
    (h : fetchOne rows id = some r) : r.id = id := by
  have := List.find?_some h
  simpa using this

theorem fetchOne_mem {rows : List Row} {id : Nat} {r : Row}
    (h : fetchOne rows id = some r) : r ∈ rows :=
  List.mem_of_find?_eq_some h

theorem fetchOne_append_new {rows : List Row} {nr : Row}
    (h : ∀ r ∈ rows, r.id ≠ nr.id) : fetchOne (rows ++ [nr]) nr.id = some nr := by
  have h1 : fetchOne rows nr.id = none := fetchOne_eq_none h
  unfold fetchOne at h1 ⊢
  rw [List.find?_append, h1]
  simp

theorem fetchOne_map {f : Row → Row} (hf : ∀ r, (f r).id = r.id)
    (rows : List Row) (id : Nat) :
    fetchOne (rows.map f) id = (fetchOne rows id).map f := by
  unfold fetchOne
  rw [List.find?_map]
  have hp : ((fun r : Row => decide (r.id = id)) ∘ f) =
      fun r : Row => decide (r.id = id) := by
    funext r
    simp [Function.comp, hf r]
  rw [hp]

theorem updRow_id (p : TaskUpdate) (task_id : Nat) (r : Row) :
    (updRow p task_id r).id = r.id := by
  unfold updRow
  split <;> rfl

theorem updRow_created_at (p : TaskUpdate) (task_id : Nat) (r : Row) :
    (updRow p task_id r).created_at = r.created_at := by
  unfold updRow
  split <;> rfl

theorem updRow_of_ne (p : TaskUpdate) {task_id : Nat} {r : Row}
    (h : r.id ≠ task_id) : updRow p task_id r = r := by
  unfold updRow
  rw [if_neg h]

theorem setCompleted_id (c : Int) (task_id : Nat) (r : Row) :
    (setCompleted c task_id r).id = r.id := by
  unfold setCompleted
  split <;> rfl

theorem setCompleted_created_at (c : Int) (task_id : Nat) (r : Row) :
    (setCompleted c task_id r).created_at = r.created_at := by
  unfold setCompleted
  split <;> rfl

theorem setCompleted_of_ne (c : Int) {task_id : Nat} {r : Row}
    (h : r.id ≠ task_id) : setCompleted c task_id r = r := by
  unfold setCompleted
  rw [if_neg h]

/-- Successful create, characterised: when validation passes and no stored row
already carries the fresh id, the handler returns the converted new row and
appends it. -/
theorem create_task_eq {p : TaskCreate} {now : Nat} {db : DB}
    (hv : validCreate p = true) (hid : ∀ r ∈ db.rows, r.id ≠ db.nextId) :
    create_task p now db =
      .ok (row_to_task (newRowOf p now db.nextId),
           { rows := db.rows ++ [newRowOf p now db.nextId],
             nextId := db.nextId + 1 }) := by
  unfold create_task
  rw [hv]
  have hid' : ∀ r ∈ db.rows, r.id ≠ (newRowOf p now db.nextId).id := hid
  have hf : fetchOne (db.rows ++ [newRowOf p now db.nextId])
      (newRowOf p now db.nextId).id = some (newRowOf p now db.nextId) :=
    fetchOne_append_new hid'
  simp only [Bool.not_true, Bool.false_eq_true, if_false]
  rw [show (newRowOf p now db.nextId).id = db.nextId from rfl] at hf
  rw [hf]

/-- Any successful create appends exactly the new row and bumps the id
counter, whatever row the re-SELECT returned. -/
theorem create_task_ok_rows {p : TaskCreate} {now : Nat} {db : DB}
    {t : Task} {db' : DB} (h : create_task p now db = .ok (t, db')) :
    db'.rows = db.rows ++ [newRowOf p now db.nextId] ∧
    db'.nextId = db.nextId + 1 := by
  unfold create_task at h
  dsimp only at h
  split at h
  · cases h
  · split at h
    · simp only [Except.ok.injEq, Prod.mk.injEq] at h
      rw [← h.2]
      exact ⟨rfl, rfl⟩
    · cases h

/-- Successful update, characterised. -/
theorem update_task_eq {p : TaskUpdate} {task_id : Nat} {db : DB} {r0 : Row}
    (hv : validUpdate p = true)
    (hnf : ¬(p.title = none ∧ p.completed = none))
    (h0 : fetchOne db.rows task_id = some r0) :
    update_task p task_id db =
      .ok (row_to_task (updRow p task_id r0),
           { db with rows := db.rows.map (updRow p task_id) }) := by
  unfold update_task
  rw [hv]
  simp only [Bool.not_true, Bool.false_eq_true, if_false]
  rw [if_neg hnf]
  rw [h0]
  simp only [Option.isNone_some, Bool.false_eq_true, if_false]
  rw [fetchOne_map (updRow_id p task_id), h0]
  rfl

/-- Any successful update rewrites the rows through `updRow` and keeps the id
counter. -/
theorem update_task_ok_rows {p : TaskUpdate} {task_id : Nat} {db : DB}
    {t : Task} {db' : DB} (h : update_task p task_id db = .ok (t, db')) :
    db'.rows = db.rows.map (updRow p task_id) ∧ db'.nextId = db.nextId := by
  unfold update_task at h
  dsimp only at h
  split at h
  · cases h
  · split at h
    · cases h
    · split at h
      · cases h
      · split at h
        · simp only [Except.ok.injEq, Prod.mk.injEq] at h
          rw [← h.2]
          exact ⟨rfl, rfl⟩
        · cases h

/-- Successful toggle, characterised. -/
theorem toggle_task_eq {task_id : Nat} {db : DB} {r0 : Row}
    (h0 : fetchOne db.rows task_id = some r0) :
    toggle_task task_id db =
      .ok (row_to_task
             (setCompleted (if r0.completed ≠ 0 then 0 else 1) task_id r0),
           { db with
             rows := db.rows.map
               (setCompleted (if r0.completed ≠ 0 then 0 else 1) task_id) }) := by
  unfold toggle_task
  rw [h0]
  simp only
  rw [fetchOne_map (setCompleted_id _ task_id), h0]
  rfl

/-- Any successful toggle rewrites the rows through `setCompleted` with the
flipped value of the fetched row, and keeps the id counter. -/
theorem toggle_task_ok_rows {task_id : Nat} {db : DB}
    {t : Task} {db' : DB} (h : toggle_task task_id db = .ok (t, db')) :
    ∃ r0, fetchOne db.rows task_id = some r0 ∧
      db'.rows =
        db.rows.map (setCompleted (if r0.completed ≠ 0 then 0 else 1) task_id) ∧
      db'.nextId = db.nextId := by
  cases h0 : fetchOne db.rows task_id with
  | none =>
    unfold toggle_task at h
    rw [h0] at h
    cases h
  | some r0 =>
    refine ⟨r0, rfl, ?_⟩
    rw [toggle_task_eq h0] at h
    simp only [Except.ok.injEq, Prod.mk.injEq] at h
    rw [← h.2]
    exact ⟨rfl, rfl⟩

/-- Successful delete, characterised: with a matching row present the DELETE
affects at least one row, so the handler succeeds and keeps exactly the
non-matching rows. -/
theorem delete_task_eq {task_id : Nat} {db : DB} {r0 : Row}
    (h0 : fetchOne db.rows task_id = some r0) :
    delete_task task_id db =
      .ok ((), { db with rows := db.rows.filter (fun r => r.id ≠ task_id) }) := by
  unfold delete_task
  have hmem : r0 ∈ db.rows := fetchOne_mem h0
  have hlt : (db.rows.filter (fun r => r.id ≠ task_id)).length < db.rows.length := by
    apply List.length_filter_lt_length_iff_exists.mpr
    exact ⟨r0, hmem, by simp [fetchOne_id h0]⟩
  rw [if_neg (Nat.ne_of_lt hlt)]

/-- Any successful delete keeps exactly the non-matching rows and the id
counter. -/
theorem delete_task_ok_rows {task_id : Nat} {db : DB}
    {u : Unit} {db' : DB} (h : delete_task task_id db = .ok (u, db')) :
    db'.rows = db.rows.filter (fun r => r.id ≠ task_id) ∧
    db'.nextId = db.nextId := by
  unfold delete_task at h
  dsimp only at h
  split at h
  · cases h
  · simp only [Except.ok.injEq, Prod.mk.injEq] at h
    rw [← h.2]
    exact ⟨rfl, rfl⟩

/-- Listing returns exactly the stored tasks (as a permutation). -/
theorem list_tasks_perm (db : DB) :
    (list_tasks db).Perm (db.rows.map row_to_task) :=
  (List.mergeSort_perm db.rows _).map row_to_task

/-- Listing is sorted by `created_at` descending. -/
theorem list_tasks_sorted (db : DB) :
    (list_tasks db).Pairwise (fun a b => b.created_at ≤ a.created_at) := by
  unfold list_tasks
  rw [List.pairwise_map]
  have hs :=
    @List.sorted_mergeSort Row
      (fun a b : Row => decide (b.created_at ≤ a.created_at))
      (fun a b c h1 h2 =>
        decide_eq_true (Nat.le_trans (of_decide_eq_true h2) (of_decide_eq_true h1)))
      (fun a b => by
        rcases Nat.le_total b.created_at a.created_at with h | h <;> simp [h])
      db.rows
  exact hs.imp (fun h => of_decide_eq_true h)

/-- In a list sorted descending on `created_at`, any member with the strictly
larger timestamp occurs strictly before any member with the smaller one. -/
theorem sorted_desc_positions {l : List Task} {x y : Task}
    (hl : l.Pairwise (fun a b => b.created_at ≤ a.created_at))
    (hx : x ∈ l) (hy : y ∈ l) (hk : y.created_at < x.created_at) :
    ∃ i j : Nat, i < j ∧ l[i]? = some x ∧ l[j]? = some y := by
  obtain ⟨ix, hix, hxe⟩ := List.getElem_of_mem hx
  obtain ⟨iy, hiy, hye⟩ := List.getElem_of_mem hy
  have hpw := List.pairwise_iff_getElem.mp hl
  rcases Nat.lt_trichotomy ix iy with hlt | heq | hgt
  · exact ⟨ix, iy, hlt, by rw [List.getElem?_eq_getElem hix, hxe],
      by rw [List.getElem?_eq_getElem hiy, hye]⟩
  · exfalso
    subst heq
    rw [hxe] at hye
    rw [hye] at hk
    exact Nat.lt_irrefl _ hk
  · exfalso
    have := hpw iy ix hiy hix hgt
    rw [hxe, hye] at this
    exact Nat.not_le.mpr hk this

/-- When no stored row matches `id`, update (with a usable payload), toggle
and delete each fail with 404 and, through the `get_conn` commit-or-discard
boundary, leave the store untouched. -/
theorem ops_404_of_missing {db : DB} {id : Nat}
    (hmiss : ∀ r ∈ db.rows, r.id ≠ id) :
    (∀ p : TaskUpdate, validUpdate p = true →
        ¬(p.title = none ∧ p.completed = none) →
        runOp (update_task p id) db = (.error 404, db)) ∧
    runOp (toggle_task id) db = (.error 404, db) ∧
    runOp (delete_task id) db = (.error 404, db) := by
  have hnone : fetchOne db.rows id = none := fetchOne_eq_none hmiss
  refine ⟨?_, ?_, ?_⟩
  · intro p hv hnf
    unfold runOp update_task
    rw [hv]
    simp only [Bool.not_true, Bool.false_eq_true, if_false]
    rw [if_neg hnf, hnone]
    rfl
  · unfold runOp toggle_task
    rw [hnone]
  · unfold runOp delete_task
    have hself : db.rows.filter (fun r => r.id ≠ id) = db.rows := by
      apply List.filter_eq_self.mpr
      intro r hr
      simp [hmiss r hr]
    rw [hself]
    simp

/-- Trimming never lengthens a string (so a title that is non-empty after
trimming also passes the raw `min_length=1` check). -/
theorem pyLen_pyStrip_le (s : String) : pyLen (pyStrip s) ≤ pyLen s := by
  unfold pyLen pyStrip
  calc ((((s.data.dropWhile Char.isWhitespace).reverse).dropWhile
          Char.isWhitespace).reverse).length
      = (((s.data.dropWhile Char.isWhitespace).reverse).dropWhile
          Char.isWhitespace).length := List.length_reverse _
    _ ≤ ((s.data.dropWhile Char.isWhitespace).reverse).length :=
        (List.dropWhile_sublist _).length_le
    _ = (s.data.dropWhile Char.isWhitespace).length := List.length_reverse _
    _ ≤ s.data.length := (List.dropWhile_sublist _).length_le

/-- A concrete one-task store used to instantiate the theorems below. -/
def sampleDB : DB :=
  { rows := [{ id := 1, title := "a", completed := 0, created_at := 3 }],
    nextId := 2 }

/-! ### The claims -/

/-- C1.  The claim says a create request whose title is empty after trimming
is rejected with 422 before any storage access and no empty-title task is
ever stored.  The code does the opposite: Pydantic's `min_length=1` counts
the raw, untrimmed string, so the single-space title passes validation
(`validCreate` is `true`), the handler runs, and a task whose stored and
returned title is the empty string is committed with HTTP 201. -/
theorem c1_whitespace_title_stored_empty :
    validCreate { title := " ", completed := some false } = true ∧
    create_task { title := " ", completed := some false } 0
        { rows := [], nextId := 1 } =
      .ok ({ id := 1, title := "", completed := false, created_at := 0 },
           { rows := [{ id := 1, title := "", completed := 0, created_at := 0 }],
             nextId := 2 }) :=
  ⟨rfl, rfl⟩

/-- C4.  For an id with no matching stored task, update (with a payload that
passes validation and provides at least one field), toggle and delete each
fail with 404, and the stored task list is unchanged by the failed call. -/
theorem c4_missing_id_404 (db : DB) (id : Nat) (p : TaskUpdate)
    (hmiss : ∀ r ∈ db.rows, r.id ≠ id)
    (hv : validUpdate p = true)
    (hnf : ¬(p.title = none ∧ p.completed = none)) :
    runOp (update_task p id) db = (.error 404, db) ∧
    runOp (toggle_task id) db = (.error 404, db) ∧
    runOp (delete_task id) db = (.error 404, db) := by
  obtain ⟨hu, ht, hd⟩ := ops_404_of_missing hmiss
  exact ⟨hu p hv hnf, ht, hd⟩

theorem c4_missing_id_404_witness :
    (∀ r ∈ sampleDB.rows, r.id ≠ 5) ∧
    (runOp (update_task { title := none, completed := some true } 5) sampleDB =
        (.error 404, sampleDB) ∧
      runOp (toggle_task 5) sampleDB = (.error 404, sampleDB) ∧
      runOp (delete_task 5) sampleDB = (.error 404, sampleDB)) :=
  ⟨by decide,
   c4_missing_id_404 sampleDB 5 { title := none, completed := some true }
     (by decide) (by decide) (by decide)⟩

/-- C6.  An update request providing neither `title` nor `completed` fails
with HTTP 400 (the check precedes any storage statement) and the store is
left completely unchanged. -/
theorem c6_update_no_fields_400 (db : DB) (id : Nat) (p : TaskUpdate)
    (h : p.title = none ∧ p.completed = none) :
    runOp (update_task p id) db = (.error 400, db) := by
  obtain ⟨h1, h2⟩ := h
  unfold runOp update_task validUpdate
  rw [h1, h2]
  simp

theorem c6_update_no_fields_400_witness :
    (({ title := none, completed := none } : TaskUpdate).title = none ∧
      ({ title := none, completed := none } : TaskUpdate).completed = none) ∧
    runOp (update_task { title := none, completed := none } 1) sampleDB =
      (.error 400, sampleDB) :=
  ⟨⟨rfl, rfl⟩,
   c6_update_no_fields_400 sampleDB 1 { title := none, completed := none }
     ⟨rfl, rfl⟩⟩

/-- The letter `a` followed by 255 spaces: its trimmed length is 1 but its
raw length is 256. -/
def longTitle : String := String.mk ('a' :: List.replicate 255 ' ')

set_option maxRecDepth 4000 in
/-- C2, counterexample to the claim as stated.  `longTitle` has trimmed
length 1 (within 1–255), yet the create request is rejected with 422 rather
than succeeding: Pydantic's `max_length=255` counts the raw, untrimmed
string, which has 256 characters. -/
theorem c2_trimmed_length_not_sufficient :
    1 ≤ pyLen (pyStrip longTitle) ∧ pyLen (pyStrip longTitle) ≤ 255 ∧
    create_task { title := longTitle, completed := some false } 0
        { rows := [], nextId := 1 } = .error 422 :=
  ⟨by decide, by decide, rfl⟩

/-- C2 (amended: the raw, untrimmed title must also be at most 255 characters
long, since validation measures the raw string).  For every such title,
creation succeeds with HTTP 201, and the returned — and subsequently
fetchable — task carries the trimmed title (non-empty), `completed` equal to
the request flag (`true` exactly when `completed=true` was sent), the freshly
assigned non-zero id, and `created_at` set to the creation instant. -/
theorem c2_create_valid_roundtrip (p : TaskCreate) (now : Nat) (db : DB)
    (hWF : db.WF)
    (h1 : 1 ≤ pyLen (pyStrip p.title))
    (h255 : pyLen p.title ≤ 255) :
    ∃ t db', create_task p now db = .ok (t, db') ∧
      t.title = pyStrip p.title ∧
      1 ≤ pyLen t.title ∧
      t.completed = decide (p.completed = some true) ∧
      t.id = db.nextId ∧ 1 ≤ t.id ∧
      t.created_at = now ∧
      fetchOne db'.rows t.id = some (newRowOf p now db.nextId) ∧
      row_to_task (newRowOf p now db.nextId) = t := by
  have hraw1 : 1 ≤ pyLen p.title := le_trans h1 (pyLen_pyStrip_le p.title)
  have hv : validCreate p = true := by
    unfold validCreate titleFieldOk
    rw [Bool.and_eq_true]
    exact ⟨decide_eq_true hraw1, decide_eq_true h255⟩
  have hid : ∀ r ∈ db.rows, r.id ≠ db.nextId := fun r hr =>
    Nat.ne_of_lt (hWF.2.2.1 r hr)
  refine ⟨_, _, create_task_eq hv hid, rfl, h1, ?_, rfl, hWF.1, rfl, ?_, rfl⟩
  · by_cases hc : p.completed = some true
    · simp [row_to_task, newRowOf, completedToInt, hc]
    · simp [row_to_task, newRowOf, completedToInt, hc]
  · have hid' : ∀ r ∈ db.rows, r.id ≠ (newRowOf p now db.nextId).id := hid
    exact fetchOne_append_new hid'

theorem c2_create_valid_roundtrip_witness :
    DB.WF { rows := [], nextId := 1 } ∧
    1 ≤ pyLen (pyStrip " Buy milk ") ∧
    pyLen " Buy milk " ≤ 255 ∧
    (∃ t db',
      create_task { title := " Buy milk ", completed := none } 7
          { rows := [], nextId := 1 } = .ok (t, db') ∧
      t.title = pyStrip " Buy milk " ∧
      1 ≤ pyLen t.title ∧
      t.completed = decide ((none : Option Bool) = some true) ∧
      t.id = (1 : Nat) ∧ 1 ≤ t.id ∧
      t.created_at = 7 ∧
      fetchOne db'.rows t.id =
        some (newRowOf { title := " Buy milk ", completed := none } 7 1) ∧
      row_to_task (newRowOf { title := " Buy milk ", completed := none } 7 1) = t) :=
  ⟨by decide, by decide, by decide,
   c2_create_valid_roundtrip { title := " Buy milk ", completed := none } 7
     { rows := [], nextId := 1 } (by decide) (by decide) (by decide)⟩

theorem setCompleted_here {c : Int} {id : Nat} {r : Row} (h : r.id = id) :
    setCompleted c id r = { r with completed := c } := by
  unfold setCompleted
  rw [if_pos h]

/-- C5.  For every existing task, toggling twice returns it to its original
`completed` value: the first toggle answers with the negated flag, the second
with the original one. -/
theorem c5_toggle_twice (db : DB) (id : Nat) (r0 : Row)
    (h0 : fetchOne db.rows id = some r0) :
    ∃ t1 dbA t2 dbB,
      toggle_task id db = .ok (t1, dbA) ∧
      toggle_task id dbA = .ok (t2, dbB) ∧
      t1.completed = !(row_to_task r0).completed ∧
      t2.completed = (row_to_task r0).completed := by
  have hid0 : r0.id = id := fetchOne_id h0
  have h1 := toggle_task_eq h0
  have hA : fetchOne
      (db.rows.map (setCompleted (if r0.completed ≠ 0 then 0 else 1) id)) id =
      some (setCompleted (if r0.completed ≠ 0 then 0 else 1) id r0) := by
    rw [fetchOne_map (setCompleted_id _ id), h0]
    rfl
  have h2 := @toggle_task_eq id
    { db with
      rows := db.rows.map (setCompleted (if r0.completed ≠ 0 then 0 else 1) id) }
    (setCompleted (if r0.completed ≠ 0 then 0 else 1) id r0) hA
  refine ⟨_, _, _, _, h1, h2, ?_, ?_⟩
  · rw [setCompleted_here hid0]
    by_cases hr : r0.completed = 0 <;>
      simp [row_to_task, hr]
  · by_cases hr : r0.completed = 0 <;>
      simp [row_to_task, setCompleted, hid0, hr]

theorem c5_toggle_twice_witness :
    fetchOne sampleDB.rows 1 =
      some { id := 1, title := "a", completed := 0, created_at := 3 } ∧
    ∃ t1 dbA t2 dbB,
      toggle_task 1 sampleDB = .ok (t1, dbA) ∧
      toggle_task 1 dbA = .ok (t2, dbB) ∧
      t1.completed =
        !(row_to_task { id := 1, title := "a", completed := 0, created_at := 3 }).completed ∧
      t2.completed =
        (row_to_task { id := 1, title := "a", completed := 0, created_at := 3 }).completed :=
  ⟨by decide,
   c5_toggle_twice sampleDB 1
     { id := 1, title := "a", completed := 0, created_at := 3 } (by decide)⟩

/-- With distinct ids, deleting a found id removes exactly one row. -/
theorem length_filter_ne {rows : List Row} {id : Nat} {r0 : Row}
    (hpw : rows.Pairwise (fun a b => a.id < b.id))
    (h0 : fetchOne rows id = some r0) :
    (rows.filter (fun r => r.id ≠ id)).length + 1 = rows.length := by
  induction rows with
  | nil => cases h0
  | cons r rs ih =>
    rw [List.pairwise_cons] at hpw
    by_cases hr : r.id = id
    · have hrs : rs.filter (fun r : Row => r.id ≠ id) = rs := by
        apply List.filter_eq_self.mpr
        intro b hb
        have hlt : r.id < b.id := hpw.1 b hb
        simp [Nat.ne_of_gt (hr ▸ hlt)]
      rw [List.filter_cons]
      have hd : (decide (r.id ≠ id)) = false := by simp [hr]
      rw [hd]
      simp only [Bool.false_eq_true, if_false]
      rw [hrs, List.length_cons]
    · have h0' : fetchOne rs id = some r0 := by
        unfold fetchOne at h0 ⊢
        rw [List.find?_cons_of_neg] at h0
        · exact h0
        · simp [hr]
      rw [List.filter_cons]
      have hd : (decide (r.id ≠ id)) = true := by simp [hr]
      rw [hd]
      have := ih hpw.2 h0'
      simp only [if_true, List.length_cons]
      omega

/-- C7.  Deleting an existing id removes exactly that row (the store keeps
precisely the non-matching rows and shrinks by one), answers 204 with an
empty body, and afterwards fetch, update, toggle and delete on that id all
fail with 404, leaving the store unchanged. -/
theorem c7_delete_existing (db : DB) (id : Nat) (r0 : Row)
    (hWF : db.WF) (h0 : fetchOne db.rows id = some r0) :
    ∃ db', delete_task id db = .ok ((), db') ∧
      db'.rows = db.rows.filter (fun r => r.id ≠ id) ∧
      db'.rows.length + 1 = db.rows.length ∧
      fetchOne db'.rows id = none ∧
      (∀ p : TaskUpdate, validUpdate p = true →
          ¬(p.title = none ∧ p.completed = none) →
          runOp (update_task p id) db' = (.error 404, db')) ∧
      runOp (toggle_task id) db' = (.error 404, db') ∧
      runOp (delete_task id) db' = (.error 404, db') := by
  have hmiss : ∀ r ∈ db.rows.filter (fun r => r.id ≠ id), r.id ≠ id := by
    intro r hr
    have := (List.mem_filter.mp hr).2
    exact of_decide_eq_true this
  obtain ⟨hu, ht, hd⟩ :=
    @ops_404_of_missing { db with rows := db.rows.filter (fun r => r.id ≠ id) } id
      hmiss
  exact ⟨_, delete_task_eq h0, rfl, length_filter_ne hWF.2.1 h0,
    fetchOne_eq_none hmiss, hu, ht, hd⟩

theorem c7_delete_existing_witness :
    DB.WF sampleDB ∧
    fetchOne sampleDB.rows 1 =
      some { id := 1, title := "a", completed := 0, created_at := 3 } ∧
    ∃ db', delete_task 1 sampleDB = .ok ((), db') ∧
      db'.rows = sampleDB.rows.filter (fun r => r.id ≠ 1) ∧
      db'.rows.length + 1 = sampleDB.rows.length ∧
      fetchOne db'.rows 1 = none ∧
      (∀ p : TaskUpdate, validUpdate p = true →
          ¬(p.title = none ∧ p.completed = none) →
          runOp (update_task p 1) db' = (.error 404, db')) ∧
      runOp (toggle_task 1) db' = (.error 404, db') ∧
      runOp (delete_task 1) db' = (.error 404, db') :=
  ⟨by decide, by decide,
   c7_delete_existing sampleDB 1
     { id := 1, title := "a", completed := 0, created_at := 3 }
     (by decide) (by decide)⟩

/-- C8.  Update and toggle act pointwise on the stored rows: each leaves the
row count and the id counter alone, never changes any row's `id` or
`created_at`, and leaves every row whose id differs from the targeted one
completely untouched — only `title`/`completed` of the target may change. -/
theorem c8_update_toggle_frame (db : DB) (id : Nat) (p : TaskUpdate)
    (t1 : Task) (dbU : DB) (t2 : Task) (dbT : DB)
    (hu : update_task p id db = .ok (t1, dbU))
    (ht : toggle_task id db = .ok (t2, dbT)) :
    (∃ f : Row → Row, dbU.rows = db.rows.map f ∧
        (∀ r, (f r).id = r.id ∧ (f r).created_at = r.created_at) ∧
        (∀ r, r.id ≠ id → f r = r)) ∧
    (∃ g : Row → Row, dbT.rows = db.rows.map g ∧
        (∀ r, (g r).id = r.id ∧ (g r).created_at = r.created_at) ∧
        (∀ r, r.id ≠ id → g r = r)) ∧
    dbU.nextId = db.nextId ∧ dbT.nextId = db.nextId := by
  obtain ⟨hru, hnu⟩ := update_task_ok_rows hu
  obtain ⟨r0, _, hrt, hnt⟩ := toggle_task_ok_rows ht
  refine ⟨⟨updRow p id, hru,
      fun r => ⟨updRow_id p id r, updRow_created_at p id r⟩,
      fun r hr => updRow_of_ne p hr⟩,
    ⟨setCompleted (if r0.completed ≠ 0 then 0 else 1) id, hrt,
      fun r => ⟨setCompleted_id _ id r, setCompleted_created_at _ id r⟩,
      fun r hr => setCompleted_of_ne _ hr⟩,
    hnu, hnt⟩

theorem c8_update_toggle_frame_witness :
    update_task { title := some "b", completed := none } 1 sampleDB =
      .ok ({ id := 1, title := "b", completed := false, created_at := 3 },
           { rows := [{ id := 1, title := "b", completed := 0, created_at := 3 }],
             nextId := 2 }) ∧
    toggle_task 1 sampleDB =
      .ok ({ id := 1, title := "a", completed := true, created_at := 3 },
           { rows := [{ id := 1, title := "a", completed := 1, created_at := 3 }],
             nextId := 2 }) ∧
    ((∃ f : Row → Row,
        ({ rows := [{ id := 1, title := "b", completed := 0, created_at := 3 }],
           nextId := 2 } : DB).rows = sampleDB.rows.map f ∧
        (∀ r, (f r).id = r.id ∧ (f r).created_at = r.created_at) ∧
        (∀ r, r.id ≠ 1 → f r = r)) ∧
      (∃ g : Row → Row,
        ({ rows := [{ id := 1, title := "a", completed := 1, created_at := 3 }],
           nextId := 2 } : DB).rows = sampleDB.rows.map g ∧
        (∀ r, (g r).id = r.id ∧ (g r).created_at = r.created_at) ∧
        (∀ r, r.id ≠ 1 → g r = r)) ∧
      ({ rows := [{ id := 1, title := "b", completed := 0, created_at := 3 }],
         nextId := 2 } : DB).nextId = sampleDB.nextId ∧
      ({ rows := [{ id := 1, title := "a", completed := 1, created_at := 3 }],
         nextId := 2 } : DB).nextId = sampleDB.nextId) :=
  ⟨rfl, rfl,
   c8_update_toggle_frame sampleDB 1 { title := some "b", completed := none }
     _ _ _ _ rfl rfl⟩

/-- Full inversion of a successful create when the fresh id is unused: the
response is the converted new row. -/
theorem create_task_ok_inv {p : TaskCreate} {now : Nat} {db : DB}
    {t : Task} {db' : DB}
    (hid : ∀ r ∈ db.rows, r.id ≠ db.nextId)
    (h : create_task p now db = .ok (t, db')) :
    validCreate p = true ∧
    t = row_to_task (newRowOf p now db.nextId) ∧
    db' = { rows := db.rows ++ [newRowOf p now db.nextId],
            nextId := db.nextId + 1 } := by
  by_cases hv : validCreate p = true
  · rw [create_task_eq hv hid] at h
    simp only [Except.ok.injEq, Prod.mk.injEq] at h
    exact ⟨hv, h.1.symm, h.2.symm⟩
  · exfalso
    rw [Bool.not_eq_true] at hv
    unfold create_task at h
    rw [hv] at h
    simp at h

/-- C9.  Ids are assigned by storage at creation (the AUTOINCREMENT counter),
are positive, strictly exceed every stored id (monotonically increasing over
successive creations), keep the store's ids pairwise distinct and
well-formed, and are never changed by any subsequent update, toggle or
delete. -/
theorem c9_id_assignment (db : DB) (p : TaskCreate) (now : Nat)
    (t : Task) (db' : DB)
    (hWF : db.WF) (hc : create_task p now db = .ok (t, db')) :
    1 ≤ t.id ∧ t.id = db.nextId ∧
    (∀ r ∈ db.rows, r.id < t.id) ∧
    db'.nextId = db.nextId + 1 ∧
    db'.WF ∧
    db'.rows.Pairwise (fun a b => a.id ≠ b.id) ∧
    (∀ p2 id2 t2 db2, update_task p2 id2 db' = .ok (t2, db2) →
        db2.rows.map Row.id = db'.rows.map Row.id) ∧
    (∀ id2 t2 db2, toggle_task id2 db' = .ok (t2, db2) →
        db2.rows.map Row.id = db'.rows.map Row.id) ∧
    (∀ id2 u2 db2, delete_task id2 db' = .ok (u2, db2) →
        List.Sublist (db2.rows.map Row.id) (db'.rows.map Row.id)) := by
  obtain ⟨hle1, hpw, hlt, h01⟩ := hWF
  have hid : ∀ r ∈ db.rows, r.id ≠ db.nextId := fun r hr =>
    Nat.ne_of_lt (hlt r hr)
  obtain ⟨hv, hteq, hdb'⟩ := create_task_ok_inv hid hc
  subst hteq
  subst hdb'
  refine ⟨hle1, rfl, hlt, rfl, ?_, ?_, ?_, ?_, ?_⟩
  · refine ⟨Nat.le_succ_of_le hle1, ?_, ?_, ?_⟩
    · rw [List.pairwise_append]
      refine ⟨hpw, List.pairwise_singleton _ _, ?_⟩
      intro a ha b hb
      rw [List.mem_singleton] at hb
      subst hb
      exact hlt a ha
    · intro r hr
      rcases List.mem_append.mp hr with h | h
      · exact Nat.lt_succ_of_lt (hlt r h)
      · rw [List.mem_singleton] at h
        subst h
        exact Nat.lt_succ_self _
    · intro r hr
      rcases List.mem_append.mp hr with h | h
      · exact h01 r h
      · rw [List.mem_singleton] at h
        subst h
        unfold newRowOf completedToInt
        split
        · right; rfl
        · left; rfl
  · rw [List.pairwise_append]
    refine ⟨hpw.imp (fun h => Nat.ne_of_lt h), List.pairwise_singleton _ _, ?_⟩
    intro a ha b hb
    rw [List.mem_singleton] at hb
    subst hb
    exact Nat.ne_of_lt (hlt a ha)
  · intro p2 id2 t2 db2 h2
    rw [(update_task_ok_rows h2).1, List.map_map]
    exact List.map_congr_left (fun a _ => updRow_id p2 id2 a)
  · intro id2 t2 db2 h2
    obtain ⟨r2, _, hr2, _⟩ := toggle_task_ok_rows h2
    rw [hr2, List.map_map]
    exact List.map_congr_left (fun a _ => setCompleted_id _ id2 a)
  · intro id2 u2 db2 h2
    rw [(delete_task_ok_rows h2).1]
    exact (List.filter_sublist _).map Row.id

theorem c9_id_assignment_witness :
    DB.WF { rows := [], nextId := 1 } ∧
    create_task { title := "x", completed := some true } 7
        { rows := [], nextId := 1 } =
      .ok ({ id := 1, title := "x", completed := true, created_at := 7 },
           { rows := [{ id := 1, title := "x", completed := 1, created_at := 7 }],
             nextId := 2 }) ∧
    (1 ≤ ({ id := 1, title := "x", completed := true, created_at := 7 } : Task).id ∧
     ({ id := 1, title := "x", completed := true, created_at := 7 } : Task).id =
       ({ rows := [], nextId := 1 } : DB).nextId ∧
     (∀ r ∈ ({ rows := [], nextId := 1 } : DB).rows,
        r.id < ({ id := 1, title := "x", completed := true, created_at := 7 } : Task).id) ∧
     ({ rows := [{ id := 1, title := "x", completed := 1, created_at := 7 }],
        nextId := 2 } : DB).nextId = ({ rows := [], nextId := 1 } : DB).nextId + 1 ∧
     DB.WF { rows := [{ id := 1, title := "x", completed := 1, created_at := 7 }],
             nextId := 2 } ∧
     ({ rows := [{ id := 1, title := "x", completed := 1, created_at := 7 }],
        nextId := 2 } : DB).rows.Pairwise (fun a b => a.id ≠ b.id) ∧
     (∀ p2 id2 t2 db2,
        update_task p2 id2
            { rows := [{ id := 1, title := "x", completed := 1, created_at := 7 }],
              nextId := 2 } = .ok (t2, db2) →
        db2.rows.map Row.id =
          ({ rows := [{ id := 1, title := "x", completed := 1, created_at := 7 }],
             nextId := 2 } : DB).rows.map Row.id) ∧
     (∀ id2 t2 db2,
        toggle_task id2
            { rows := [{ id := 1, title := "x", completed := 1, created_at := 7 }],
              nextId := 2 } = .ok (t2, db2) →
        db2.rows.map Row.id =
          ({ rows := [{ id := 1, title := "x", completed := 1, created_at := 7 }],
             nextId := 2 } : DB).rows.map Row.id) ∧
     (∀ id2 u2 db2,
        delete_task id2
            { rows := [{ id := 1, title := "x", completed := 1, created_at := 7 }],
              nextId := 2 } = .ok (u2, db2) →
        List.Sublist (db2.rows.map Row.id)
          (({ rows := [{ id := 1, title := "x", completed := 1, created_at := 7 }],
              nextId := 2 } : DB).rows.map Row.id))) :=
  ⟨by decide, rfl,
   c9_id_assignment { rows := [], nextId := 1 }
     { title := "x", completed := some true } 7 _ _ (by decide) rfl⟩

/-- The row updater keeps the 0/1 discipline on the `completed` column. -/
theorem updRow_completed_01 {p : TaskUpdate} {task_id : Nat} {a : Row}
    (ha : a.completed = 0 ∨ a.completed = 1) :
    (updRow p task_id a).completed = 0 ∨ (updRow p task_id a).completed = 1 := by
  unfold updRow
  split
  · cases hb : p.completed with
    | none => simpa using ha
    | some b => cases b <;> simp
  · exact ha

/-- C10.  Every write path (create, update, toggle) stores the `completed`
column as exactly 0 or 1 — the invariant is preserved by every operation —
and the read path converts the stored integer back to a boolean by comparing
it with 0 (`bool(row["completed"])`). -/
theorem c10_completed_01 (db : DB) (h : Completed01 db) :
    (∀ p now t db', create_task p now db = .ok (t, db') → Completed01 db') ∧
    (∀ p id t db', update_task p id db = .ok (t, db') → Completed01 db') ∧
    (∀ id t db', toggle_task id db = .ok (t, db') → Completed01 db') ∧
    (∀ id u db', delete_task id db = .ok (u, db') → Completed01 db') ∧
    (∀ r ∈ db.rows, (row_to_task r).completed = decide (r.completed ≠ 0)) := by
  refine ⟨?_, ?_, ?_, ?_, fun r _ => rfl⟩
  · intro p now t db' hc
    rw [Completed01, (create_task_ok_rows hc).1]
    intro r hr
    rcases List.mem_append.mp hr with hm | hm
    · exact h r hm
    · rw [List.mem_singleton] at hm
      subst hm
      unfold newRowOf completedToInt
      split
      · right; rfl
      · left; rfl
  · intro p id t db' hu
    rw [Completed01, (update_task_ok_rows hu).1]
    intro r hr
    obtain ⟨a, ha, rfl⟩ := List.mem_map.mp hr
    exact updRow_completed_01 (h a ha)
  · intro id t db' ht
    obtain ⟨r0, _, hrt, _⟩ := toggle_task_ok_rows ht
    rw [Completed01, hrt]
    intro r hr
    obtain ⟨a, ha, rfl⟩ := List.mem_map.mp hr
    unfold setCompleted
    split
    · split
      · left; rfl
      · right; rfl
    · exact h a ha
  · intro id u db' hd
    rw [Completed01, (delete_task_ok_rows hd).1]
    intro r hr
    exact h r (List.mem_of_mem_filter hr)

theorem c10_completed_01_witness :
    Completed01 sampleDB ∧
    ((∀ p now t db', create_task p now sampleDB = .ok (t, db') → Completed01 db') ∧
     (∀ p id t db', update_task p id sampleDB = .ok (t, db') → Completed01 db') ∧
     (∀ id t db', toggle_task id sampleDB = .ok (t, db') → Completed01 db') ∧
     (∀ id u db', delete_task id sampleDB = .ok (u, db') → Completed01 db') ∧
     (∀ r ∈ sampleDB.rows, (row_to_task r).completed = decide (r.completed ≠ 0))) :=
  ⟨by decide, c10_completed_01 sampleDB (by decide)⟩

/-- C3.  Listing returns all stored tasks (a permutation of the store)
ordered descending by `created_at` (newest first; ties keep the storage's
natural retrieval order); in particular, after creating T1 and then T2 at a
strictly later instant, listing places T2 strictly before T1. -/
theorem c3_listing_order (db dbA dbB : DB) (p1 p2 : TaskCreate) (s1 s2 : Nat)
    (t1 t2 : Task)
    (hWF : db.WF)
    (h1 : create_task p1 s1 db = .ok (t1, dbA))
    (h2 : create_task p2 s2 dbA = .ok (t2, dbB))
    (hs : s1 < s2) :
    (∀ d : DB, (list_tasks d).Perm (d.rows.map row_to_task) ∧
        (list_tasks d).Pairwise (fun a b => b.created_at ≤ a.created_at)) ∧
    (∃ i j : Nat, i < j ∧ (list_tasks dbB)[i]? = some t2 ∧
        (list_tasks dbB)[j]? = some t1) := by
  refine ⟨fun d => ⟨list_tasks_perm d, list_tasks_sorted d⟩, ?_⟩
  obtain ⟨hle1, hpw, hlt, h01⟩ := hWF
  have hid1 : ∀ r ∈ db.rows, r.id ≠ db.nextId := fun r hr =>
    Nat.ne_of_lt (hlt r hr)
  obtain ⟨_, ht1, hdbA⟩ := create_task_ok_inv hid1 h1
  subst hdbA
  have hid2 : ∀ r ∈ (db.rows ++ [newRowOf p1 s1 db.nextId]),
      r.id ≠ db.nextId + 1 := by
    intro r hr
    rcases List.mem_append.mp hr with hm | hm
    · exact Nat.ne_of_lt (Nat.lt_succ_of_lt (hlt r hm))
    · rw [List.mem_singleton] at hm
      subst hm
      exact Nat.ne_of_lt (Nat.lt_succ_self _)
  obtain ⟨_, ht2, hdbB⟩ := create_task_ok_inv hid2 h2
  subst ht1
  subst ht2
  subst hdbB
  have hm1 : newRowOf p1 s1 db.nextId ∈
      (db.rows ++ [newRowOf p1 s1 db.nextId]) ++ [newRowOf p2 s2 (db.nextId + 1)] :=
    List.mem_append_left _ (List.mem_append_right _ (List.mem_singleton_self _))
  have hm2 : newRowOf p2 s2 (db.nextId + 1) ∈
      (db.rows ++ [newRowOf p1 s1 db.nextId]) ++ [newRowOf p2 s2 (db.nextId + 1)] :=
    List.mem_append_right _ (List.mem_singleton_self _)
  have hperm := list_tasks_perm
    { rows := (db.rows ++ [newRowOf p1 s1 db.nextId]) ++ [newRowOf p2 s2 (db.nextId + 1)],
      nextId := db.nextId + 1 + 1 }
  have hmem1 : row_to_task (newRowOf p1 s1 db.nextId) ∈
      list_tasks
        { rows := (db.rows ++ [newRowOf p1 s1 db.nextId]) ++ [newRowOf p2 s2 (db.nextId + 1)],
          nextId := db.nextId + 1 + 1 } :=
    hperm.mem_iff.mpr (List.mem_map_of_mem row_to_task hm1)
  have hmem2 : row_to_task (newRowOf p2 s2 (db.nextId + 1)) ∈
      list_tasks
        { rows := (db.rows ++ [newRowOf p1 s1 db.nextId]) ++ [newRowOf p2 s2 (db.nextId + 1)],
          nextId := db.nextId + 1 + 1 } :=
    hperm.mem_iff.mpr (List.mem_map_of_mem row_to_task hm2)
  exact sorted_desc_positions
    (list_tasks_sorted _) hmem2 hmem1 hs

theorem c3_listing_order_witness :
    DB.WF { rows := [], nextId := 1 } ∧
    create_task { title := "a", completed := some false } 1
        { rows := [], nextId := 1 } =
      .ok ({ id := 1, title := "a", completed := false, created_at := 1 },
           { rows := [{ id := 1, title := "a", completed := 0, created_at := 1 }],
             nextId := 2 }) ∧
    create_task { title := "b", completed := some false } 2
        { rows := [{ id := 1, title := "a", completed := 0, created_at := 1 }],
          nextId := 2 } =
      .ok ({ id := 2, title := "b", completed := false, created_at := 2 },
           { rows := [{ id := 1, title := "a", completed := 0, created_at := 1 },
                      { id := 2, title := "b", completed := 0, created_at := 2 }],
             nextId := 3 }) ∧
    (1 : Nat) < 2 ∧
    ((∀ d : DB, (list_tasks d).Perm (d.rows.map row_to_task) ∧
        (list_tasks d).Pairwise (fun a b => b.created_at ≤ a.created_at)) ∧
     (∃ i j : Nat, i < j ∧
        (list_tasks
          { rows := [{ id := 1, title := "a", completed := 0, created_at := 1 },
                     { id := 2, title := "b", completed := 0, created_at := 2 }],
            nextId := 3 })[i]? =
          some { id := 2, title := "b", completed := false, created_at := 2 } ∧
        (list_tasks
          { rows := [{ id := 1, title := "a", completed := 0, created_at := 1 },
                     { id := 2, title := "b", completed := 0, created_at := 2 }],
            nextId := 3 })[j]? =
          some { id := 1, title := "a", completed := false, created_at := 1 })) :=
  ⟨by decide, rfl, rfl, by decide,
   c3_listing_order { rows := [], nextId := 1 }
     { rows := [{ id := 1, title := "a", completed := 0, created_at := 1 }],
       nextId := 2 }
     { rows := [{ id := 1, title := "a", completed := 0, created_at := 1 },
                { id := 2, title := "b", completed := 0, created_at := 2 }],
       nextId := 3 }
     { title := "a", completed := some false }
     { title := "b", completed := some false } 1 2
     { id := 1, title := "a", completed := false, created_at := 1 }
     { id := 2, title := "b", completed := false, created_at := 2 }
     (by decide) rfl rfl (by decide)⟩

end Todo
